import Mathlib

/-!
Verification of the xeus-python debugger (src/xdebugger.cpp) against its
natural-language specification.  C++ std::string is modelled as `List Char`
(or `String` where it only serves as a map key), nlohmann json values as the
inductive type `JValue` below, and external collaborators (the embedded
display formatter of the interpreter, the shell execution channel, the external
debug adapter) as explicit oracle functions.  Fallible C++ code (throwing
accessors, std::stoi, substr out of range, zmq unbind failures) is modelled
with `Option`.
-/

namespace XeusPython

/-- Null character, used to model `std::string::operator[]` reading the
terminating null character at position `size()`. -/
def null_char : Char := Char.ofNat 0

/-- Static list of variable names never surfaced to the user
(`get_excluded_variables` in xdebugger.cpp). -/
def get_excluded_variables : List (List Char) :=
  [ "__name__".toList
  , "__doc__".toList
  , "__package__".toList
  , "__loader__".toList
  , "__spec__".toList
  , "__annotations__".toList
  , "__builtins__".toList
  , "__builtin__".toList
  , "display".toList
  , "get_ipython".toList
  , "debugpy".toList
  , "exit".toList
  , "quit".toList
  , "In".toList
  , "Out".toList
  , "_oh".toList
  , "_dh".toList
  , "_".toList
  , "__".toList
  , "___".toList ]

/-- Variable filter `keep_variable` from xdebugger.cpp.
`var_name.substr(0u, 2u)` is `List.take 2`; `var_name[0]` and `var_name[1]`
are `operator[]` reads which yield the terminating null character past the
end (the C++ `&&` short-circuits, so index 1 is only read when index 0 held
an underscore, hence no undefined access occurs for the empty string);
`std::find` over the excluded list compared with `cend()` is list
membership. -/
def keep_variable (var_name : List Char) : Bool :=
  let l := get_excluded_variables
  let res := decide (var_name.take 2 ≠ ['_', 'i'])
  let res := res && !(decide (var_name.getD 0 null_char = '_') && (var_name.getD 1 null_char).isDigit)
  let res := res && decide (var_name ∉ l)
  res

/-- Spec-side reading of rule (a) of the Variable Filter: the name starts
with the two-character input-history marker "_i". -/
def spec_input_history_name (n : List Char) : Bool :=
  decide (n.take 2 = ['_', 'i'])

/-- Spec-side reading of rule (b) of the Variable Filter: the name is an
underscore followed immediately by a digit (the pattern from the spec,
`_<digit>...`). -/
def spec_underscore_digit_name : List Char → Bool
  | a :: c :: _ => decide (a = '_') && c.isDigit
  | _ => false

theorem null_char_isDigit : null_char.isDigit = false := by decide

theorem spec_underscore_digit_name_eq (n : List Char) :
    spec_underscore_digit_name n =
      (decide (n.getD 0 null_char = '_') && (n.getD 1 null_char).isDigit) := by
  match n with
  | [] => simp [spec_underscore_digit_name, null_char_isDigit]
  | [c] => simp [spec_underscore_digit_name, null_char_isDigit]
  | a :: c :: t => simp [spec_underscore_digit_name]

/-- C1: `keep_variable` keeps a name iff it does not start with "_i", is not
an underscore followed immediately by a digit, and is not an exact member of
the excluded-name set; in particular every excluded name (e.g. "__") is
dropped, "_1" is dropped, and "my_var" is kept. -/
theorem keep_variable_spec :
    (∀ n : List Char, keep_variable n = true ↔
      (spec_input_history_name n = false ∧ spec_underscore_digit_name n = false ∧
        n ∉ get_excluded_variables))
    ∧ (∀ n, n ∈ get_excluded_variables → keep_variable n = false)
    ∧ keep_variable "_1".toList = false
    ∧ keep_variable "my_var".toList = true := by
  have main : ∀ n : List Char, keep_variable n = true ↔
      (spec_input_history_name n = false ∧ spec_underscore_digit_name n = false ∧
        n ∉ get_excluded_variables) := by
    intro n
    simp [keep_variable, spec_input_history_name, spec_underscore_digit_name_eq,
      Bool.and_eq_true, Bool.not_eq_true', and_assoc]
    tauto
  refine ⟨main, ?_, by decide, by decide⟩
  intro n hn
  have h := main n
  rcases hh : keep_variable n with _ | _
  · rfl
  · exact absurd hn (h.mp hh).2.2

/-- Witness for C1: "__" is an excluded name and is dropped by the filter. -/
theorem keep_variable_spec_witness :
    ("__".toList ∈ get_excluded_variables) ∧ keep_variable "__".toList = false :=
  ⟨by decide, keep_variable_spec.2.1 "__".toList (by decide)⟩

/-! JSON model.  nlohmann json values are modelled with integer numbers (the
debugger only ever manipulates integral numbers and booleans) and objects as
association lists in insertion order (nlohmann stores objects as sorted maps;
key order never matters for the properties below, so the insertion order of
the source is kept). -/

inductive JValue where
  | null : JValue
  | bool : Bool → JValue
  | num : Int → JValue
  | str : String → JValue
  | arr : List JValue → JValue
  | obj : List (String × JValue) → JValue

/-- Lookup of a key in the entry list of an object (first match). -/
def lookupKey : List (String × JValue) → String → Option JValue
  | [], _ => none
  | (k', v) :: rest, k => if k' = k then some v else lookupKey rest k

/-- Replace the value stored at a key, or append the pair when absent
(`operator[]` assignment on a json object). -/
def setKey : List (String × JValue) → String → JValue → List (String × JValue)
  | [], k, v => [(k, v)]
  | (k', v') :: rest, k, v =>
      if k' = k then (k', v) :: rest else (k', v') :: setKey rest k v

/-- Entry list of an object value (empty for every other kind). -/
def JValue.getObj : JValue → List (String × JValue)
  | .obj kvs => kvs
  | _ => []

/-- Read access `j[k]` (const `operator[]` / membership-checked access):
`none` when the key is absent or `j` is not an object. -/
def JValue.get (j : JValue) (k : String) : Option JValue :=
  lookupKey j.getObj k

/-- Write access `j[k] = v`: a null value is silently converted to an object
first, exactly as the nlohmann non-const `operator[]` does. -/
def JValue.set (j : JValue) (k : String) (v : JValue) : JValue :=
  .obj (setKey j.getObj k v)

/-- Conversion `get<std::string>()`: throws unless the value is a string. -/
def JValue.asStr : JValue → Option String
  | .str s => some s
  | _ => none

/-- Conversion `get<int>()`: throws unless the value is a number.  (The C++
`int` width is not modelled; protocol sequence numbers and frame ids are
small.) -/
def JValue.asInt : JValue → Option Int
  | .num n => some n
  | _ => none

/-- Conversion `get<std::vector<std::string>>()`: an array of strings. -/
def JValue.asStrList : JValue → Option (List String)
  | .arr xs => xs.mapM JValue.asStr
  | _ => none

/-- Keys of an object value, in storage order. -/
def JValue.keys (j : JValue) : List String := j.getObj.map Prod.fst

/-- Membership test `j.contains(k)` (Python `in` on a dict, nlohmann
`contains`). -/
def JValue.hasKey (j : JValue) (k : String) : Bool := (j.get k).isSome

theorem lookupKey_setKey_self (l : List (String × JValue)) (k : String) (v : JValue) :
    lookupKey (setKey l k v) k = some v := by
  induction l with
  | nil => simp [setKey, lookupKey]
  | cons p rest ih =>
      by_cases h : p.1 = k
      · simp [setKey, lookupKey, h]
      · simp [setKey, lookupKey, h, ih]

theorem lookupKey_setKey_ne (l : List (String × JValue)) (k k' : String) (v : JValue)
    (h : k ≠ k') : lookupKey (setKey l k v) k' = lookupKey l k' := by
  induction l with
  | nil => simp [setKey, lookupKey, h]
  | cons p rest ih =>
      by_cases hp : p.1 = k
      · simp [setKey, lookupKey, hp, h]
      · simp [setKey, lookupKey, hp, ih]

theorem mem_setKey_keys (l : List (String × JValue)) (k a : String) (v : JValue) :
    a ∈ (setKey l k v).map Prod.fst ↔ a = k ∨ a ∈ l.map Prod.fst := by
  induction l with
  | nil => simp [setKey]
  | cons p rest ih =>
      by_cases hp : p.1 = k
      · subst hp
        simp [setKey]
      · simp [setKey, hp, ih]
        tauto

theorem lookupKey_isSome_iff (l : List (String × JValue)) (k : String) :
    (lookupKey l k).isSome = true ↔ k ∈ l.map Prod.fst := by
  induction l with
  | nil => simp [lookupKey]
  | cons p rest ih =>
      by_cases hp : p.1 = k
      · simp [lookupKey, hp]
      · simp [lookupKey, hp, ih]
        tauto

/-! Request handlers.  Each handler returns its json reply together with the
list of requests it passed to `forward_message`, so that "no forwarding call
was made" is the statement that this list is empty.  The external adapter is
an oracle `fwd` mapping a forwarded request to its reply. -/

/-- Model of `std::stoi` restricted to decimal numerals: the leading run of
digits, `none` when there is none (std::invalid_argument).  Sign and leading
whitespace handling of std::stoi is omitted; the session port this is applied
to is a decimal numeral produced by the free-port scan. -/
def stoi (s : String) : Option Int :=
  let ds := s.toList.takeWhile Char.isDigit
  if ds.isEmpty then none
  else some (ds.foldl (fun a c => a * 10 + Int.ofNat (c.toNat - 48)) (0 : Int))

/-- Handler `debugger::configuration_done_request`: reads the integer `seq`
of the request and synthesizes a success response, forwarding nothing. -/
def configuration_done_request (message : JValue) : Option (JValue × List JValue) := do
  let seq ← (← message.get "seq").asInt
  let s_raw ← message.get "seq"
  let cmd ← message.get "command"
  pure (JValue.obj [("seq", .num seq), ("type", .str "response"), ("request_seq", s_raw),
                    ("success", .bool true), ("command", cmd)], [])

/-- Handler `debugger::attach_request`: copies the request, injects
`arguments.connect = \x7bhost, stoi(port)\x7d` and `arguments.logToFile = true`,
forwards the rewritten request and returns the reply of the adapter.  The non-const
`operator[]` chain creates the `arguments` object when absent (null is
converted to an object by `JValue.set`). -/
def attach_request (fwd : JValue → JValue) (host port : String) (message : JValue) :
    Option (JValue × List JValue) := do
  let p ← stoi port
  let args := (message.get "arguments").getD .null
  let args := args.set "connect" (JValue.obj [("host", .str host), ("port", .num p)])
  let args := args.set "logToFile" (.bool true)
  let new_message := message.set "arguments" args
  pure (fwd new_message, [new_message])

/-- C5: a configurationDone request with integer seq `s` and command
"configurationDone" gets exactly the synthetic reply
`\x7bseq, type, request_seq, success, command\x7d` with no body, and no request is
forwarded to the external adapter. -/
theorem configuration_done_request_spec (message : JValue) (s : Int)
    (hseq : message.get "seq" = some (.num s))
    (hcmd : message.get "command" = some (.str "configurationDone")) :
    configuration_done_request message =
      some (JValue.obj [("seq", .num s), ("type", .str "response"), ("request_seq", .num s),
                        ("success", .bool true), ("command", .str "configurationDone")], []) := by
  simp [configuration_done_request, hseq, hcmd, JValue.asInt]

/-- Witness for C5 at the concrete request of the spec, `seq = 7`. -/
theorem configuration_done_request_spec_witness :
    configuration_done_request
        (JValue.obj [("seq", .num 7), ("command", .str "configurationDone")]) =
      some (JValue.obj [("seq", .num 7), ("type", .str "response"), ("request_seq", .num 7),
                        ("success", .bool true), ("command", .str "configurationDone")], []) :=
  configuration_done_request_spec
    (JValue.obj [("seq", .num 7), ("command", .str "configurationDone")]) 7 rfl rfl

/-- C4: for every attach request (an object) whose port parses, the handler
forwards exactly one rewritten request whose `arguments.connect` is
`\x7bhost, numeric port\x7d` and whose `arguments.logToFile` is true, and returns
the reply of the external adapter to that forwarded request; concretely, host
"127.0.0.1" and port "5678" yield `connect = \x7b"host": "127.0.0.1",
"port": 5678\x7d`. -/
theorem attach_request_spec :
    (∀ (fwd : JValue → JValue) (host port : String) (p : Int) (kvs : List (String × JValue)),
      stoi port = some p →
      ∃ fm, attach_request fwd host port (.obj kvs) = some (fwd fm, [fm]) ∧
        ((fm.get "arguments").getD .null).get "connect" =
          some (.obj [("host", .str host), ("port", .num p)]) ∧
        ((fm.get "arguments").getD .null).get "logToFile" = some (.bool true))
    ∧ stoi "5678" = some 5678 := by
  refine ⟨?_, by decide⟩
  intro fwd host port p kvs hp
  refine ⟨?_, ?_, ?_, ?_⟩
  · exact (JValue.obj kvs).set "arguments"
      ((((JValue.obj kvs).get "arguments").getD .null).set "connect"
          (JValue.obj [("host", .str host), ("port", .num p)])
        |>.set "logToFile" (.bool true))
  · simp [attach_request, hp]
  · simp [JValue.set, JValue.get, JValue.getObj, lookupKey_setKey_self]
    rw [lookupKey_setKey_ne]
    · rw [lookupKey_setKey_self]
    · intro h
      exact absurd h (by decide)
  · simp [JValue.set, JValue.get, JValue.getObj, lookupKey_setKey_self]

/-- Witness for C4: the concrete attach rewrite of the spec at host "127.0.0.1"
and port "5678" with an empty incoming argument object. -/
theorem attach_request_spec_witness :
    ∃ fm, attach_request (fun _ => JValue.null) "127.0.0.1" "5678" (.obj []) =
        some (JValue.null, [fm]) ∧
      ((fm.get "arguments").getD .null).get "connect" =
        some (.obj [("host", .str "127.0.0.1"), ("port", .num 5678)]) ∧
      ((fm.get "arguments").getD .null).get "logToFile" = some (.bool true) :=
  attach_request_spec.1 (fun _ => JValue.null) "127.0.0.1" "5678" 5678 [] (by decide)

/-! inspectVariables.  The interpreter global scope is a list of
(name, object) pairs in dict order.  A Python object is abstracted by the
three observations the handler makes of it: its json conversion (which can
throw: `none`), its `repr` text, and the text of its type. -/

/-- Observations the listing handler makes of one Python object. -/
structure PyObject where
  to_json : Option JValue
  repr_str : String
  type_str : String

/-- Variable filter applied to a `String` name (same function, the C++
std::string being modelled as the list of its characters). -/
def keep_variable_str (s : String) : Bool := keep_variable s.toList

/-- Model of `std::string::substr(pos, count)`: throws std::out_of_range when
`pos > size()`, otherwise yields `count` characters from `pos` clamped to the
end of the string. -/
def cpp_substr (s : List Char) (pos count : Nat) : Option (List Char) :=
  if pos ≤ s.length then some ((s.drop pos).take (min count (s.length - pos))) else none

/-- Unsigned 64-bit `size_t` subtraction `a - b` (the source computes
`size - 10u`, which wraps for sizes below 10). -/
def size_t_sub (a b : Nat) : Nat := (a + 2 ^ 64 - b) % 2 ^ 64

/-- Type-name truncation `var_type.substr(size_t(8), size - 10u)` from
`inspect_variables_request`. -/
def truncate_type_name (var_type : List Char) : Option (List Char) :=
  cpp_substr var_type 8 (size_t_sub var_type.length 10)

/-- Loop body of `inspect_variables_request` for one kept variable: build its
Variable Descriptor.  The json conversion of the value is tried first and its
failure is caught, substituting `py::repr`; the type string truncation throws
out of the loop when the type text is shorter than 8 characters. -/
def variable_entry (name : String) (obj : PyObject) : Option JValue :=
  let value := match obj.to_json with
    | some j => j
    | none => JValue.str obj.repr_str
  match truncate_type_name obj.type_str.data with
  | none => none
  | some t =>
      some (JValue.obj [("name", .str name), ("variablesReference", .num 0),
                        ("value", value), ("type", .str (String.mk t))])

/-- The `for (const py::handle& key : variables)` loop of
`inspect_variables_request`: one descriptor per kept global. -/
def inspect_variables_vars : List (String × PyObject) → Option (List JValue)
  | [] => some []
  | (name, obj) :: rest =>
      if keep_variable_str name then
        match variable_entry name obj, inspect_variables_vars rest with
        | some e, some tail => some (e :: tail)
        | _, _ => none
      else inspect_variables_vars rest

/-- Handler `debugger::inspect_variables_request`: lists the kept interpreter
globals and wraps them in a success response.  It forwards nothing (no
`forward_message` call occurs in its body). -/
def inspect_variables_request (globals : List (String × PyObject)) (message : JValue) :
    Option JValue :=
  match inspect_variables_vars globals, message.get "seq", message.get "command" with
  | some json_vars, some s_raw, some cmd =>
      some (JValue.obj [("type", .str "response"), ("request_seq", s_raw),
                        ("success", .bool true), ("command", cmd),
                        ("body", .obj [("variables", .arr json_vars)])])
  | _, _, _ => none

theorem variable_entry_eq (name : String) (obj : PyObject) (e : JValue)
    (h : variable_entry name obj = some e) :
    ∃ t, truncate_type_name obj.type_str.data = some t ∧
      e = JValue.obj [("name", .str name), ("variablesReference", .num 0),
            ("value", match obj.to_json with
                      | some j => j
                      | none => JValue.str obj.repr_str),
            ("type", .str (String.mk t))] := by
  rcases ht : truncate_type_name obj.type_str.data with _ | t
  · simp [variable_entry, ht] at h
  · simp only [variable_entry, ht, Option.some.injEq] at h
    exact ⟨t, rfl, h.symm⟩

theorem inspect_variables_vars_spec :
    ∀ (gs : List (String × PyObject)) (vars : List JValue),
      inspect_variables_vars gs = some vars →
      vars.map (fun v => v.get "name") =
        (gs.filter fun p => keep_variable_str p.1).map (fun p => some (JValue.str p.1)) ∧
      vars.length = (gs.filter fun p => keep_variable_str p.1).length ∧
      ∀ v ∈ vars, v.get "variablesReference" = some (.num 0) := by
  intro gs
  induction gs with
  | nil =>
      intro vars h
      simp [inspect_variables_vars] at h
      subst h
      simp
  | cons p rest ih =>
      intro vars h
      rcases p with ⟨name, obj⟩
      by_cases hk : keep_variable_str name
      · rcases he : variable_entry name obj with _ | e <;>
          rcases htail : inspect_variables_vars rest with _ | tail <;>
          simp only [inspect_variables_vars, hk, if_true, he, htail,
            Option.some.injEq, reduceCtorEq] at h
        subst h
        obtain ⟨hn, hl, hr⟩ := ih tail htail
        obtain ⟨t, _, he⟩ := variable_entry_eq name obj e he
        subst he
        have hget : (JValue.obj [("name", JValue.str name), ("variablesReference", JValue.num 0),
            ("value", match obj.to_json with
                      | some j => j
                      | none => JValue.str obj.repr_str),
            ("type", JValue.str (String.mk t))]).get "name" = some (.str name) := rfl
        refine ⟨?_, ?_, ?_⟩
        · simp [List.filter_cons, hk, hget, hn]
        · simp [List.filter_cons, hk, hl]
        · intro v hv
          rcases List.mem_cons.mp hv with hv | hv
          · subst hv
            rfl
          · exact hr v hv
      · simp only [inspect_variables_vars, hk, if_false, Bool.false_eq_true] at h
        obtain ⟨hn, hl, hr⟩ := ih vars h
        refine ⟨?_, ?_, hr⟩
        · simpa [List.filter, hk] using hn
        · simpa [List.filter, hk] using hl

theorem inspect_variables_vars_append (g1 g2 : List (String × PyObject)) :
    inspect_variables_vars (g1 ++ g2) =
      (inspect_variables_vars g1).bind fun v1 =>
        (inspect_variables_vars g2).map fun v2 => v1 ++ v2 := by
  induction g1 with
  | nil =>
      rcases hg2 : inspect_variables_vars g2 with _ | v2 <;>
        simp [inspect_variables_vars, List.nil_append, hg2]
  | cons p rest ih =>
      rcases p with ⟨name, obj⟩
      by_cases hk : keep_variable_str name <;>
        rcases he : variable_entry name obj with _ | e <;>
        rcases htail : inspect_variables_vars rest with _ | tail <;>
        rcases hg2 : inspect_variables_vars g2 with _ | v2 <;>
        simp [inspect_variables_vars, hk, he, htail, hg2, ih]

theorem inspect_variables_request_eq (globals : List (String × PyObject)) (message : JValue)
    (res : JValue) (h : inspect_variables_request globals message = some res) :
    ∃ vars s_raw cmd, inspect_variables_vars globals = some vars ∧
      message.get "seq" = some s_raw ∧ message.get "command" = some cmd ∧
      res = JValue.obj [("type", .str "response"), ("request_seq", s_raw),
        ("success", .bool true), ("command", cmd),
        ("body", .obj [("variables", .arr vars)])] := by
  rcases hv : inspect_variables_vars globals with _ | vars <;>
    rcases hs : message.get "seq" with _ | s_raw <;>
    rcases hc : message.get "command" with _ | cmd <;>
    simp only [inspect_variables_request, hv, hs, hc, Option.some.injEq, reduceCtorEq] at h
  exact ⟨vars, s_raw, cmd, rfl, rfl, rfl, h.symm⟩

theorem truncate_type_name_class (X : List Char) (h : X.length + 10 < 2 ^ 64) :
    truncate_type_name ("<class \x27".data ++ X ++ ['\x27', '>']) = some X := by
  have h8 : ("<class \x27".data).length = 8 := rfl
  have hlen : ("<class \x27".data ++ X ++ ['\x27', '>']).length = X.length + 10 := by
    simp [List.length_append, h8]
  unfold truncate_type_name cpp_substr size_t_sub
  rw [hlen, if_pos (by omega)]
  have hmod : (X.length + 10 + 2 ^ 64 - 10) % 2 ^ 64 = X.length := by omega
  have hmin : min X.length (X.length + 10 - 8) = X.length := by omega
  rw [hmod, hmin, List.append_assoc]
  rw [show (8 : Nat) = ("<class \x27".data).length from rfl, List.drop_left, List.take_left]

/-- Example interpreter scope from the testable property of the spec for
inspectVariables. -/
def example_scope : List (String × PyObject) :=
  [ ("x", ⟨some (.num 1), "1", "<class \x27int\x27>"⟩)
  , ("__name__", ⟨some (.str "__main__"), "\x27__main__\x27", "<class \x27str\x27>"⟩)
  , ("_1", ⟨some (.num 5), "5", "<class \x27int\x27>"⟩) ]

/-- Example inspectVariables request. -/
def example_inspect_message : JValue :=
  JValue.obj [("seq", .num 1), ("command", .str "inspectVariables")]

/-- Reply produced for `example_scope`: exactly one descriptor, for "x". -/
def example_inspect_reply : JValue :=
  JValue.obj [("type", .str "response"), ("request_seq", .num 1),
    ("success", .bool true), ("command", .str "inspectVariables"),
    ("body", .obj [("variables", .arr [JValue.obj [("name", .str "x"),
      ("variablesReference", .num 0), ("value", .num 1), ("type", .str "int")]])])]

/-- C6: every inspectVariables reply reports success and contains exactly one
Variable Descriptor per global name accepted by the filter, each with
variablesReference 0; the reported type is X whenever the type text is
`<class ...X...>` with the fixed 8-character head and 2-character tail
stripped; and the three-variable scope of the spec yields exactly the single
descriptor for "x". -/
theorem inspect_variables_request_spec :
    (∀ globals message res, inspect_variables_request globals message = some res →
      res.get "success" = some (.bool true) ∧
      ∃ vars, res.get "body" = some (.obj [("variables", .arr vars)]) ∧
        vars.length = (globals.filter fun p => keep_variable_str p.1).length ∧
        vars.map (fun v => v.get "name") =
          (globals.filter fun p => keep_variable_str p.1).map (fun p => some (JValue.str p.1)) ∧
        ∀ v ∈ vars, v.get "variablesReference" = some (.num 0))
    ∧ (∀ name obj e X, obj.type_str.data = "<class \x27".data ++ X ++ ['\x27', '>'] →
        X.length + 10 < 2 ^ 64 →
        variable_entry name obj = some e → e.get "type" = some (.str (String.mk X)))
    ∧ inspect_variables_request example_scope example_inspect_message =
        some example_inspect_reply := by
  refine ⟨?_, ?_, rfl⟩
  · intro globals message res h
    obtain ⟨vars, s_raw, cmd, hv, _, _, hres⟩ := inspect_variables_request_eq globals message res h
    subst hres
    obtain ⟨hn, hl, hr⟩ := inspect_variables_vars_spec globals vars hv
    exact ⟨rfl, vars, rfl, hl, hn, hr⟩
  · intro name obj e X htyp hlt he
    obtain ⟨t, ht, he'⟩ := variable_entry_eq name obj e he
    rw [htyp, truncate_type_name_class X hlt] at ht
    have hXt : X = t := by injection ht
    subst hXt
    subst he'
    rfl

/-- Witness for C6: the general reply facts applied at the concrete
scope of the spec and request. -/
theorem inspect_variables_request_spec_witness :
    example_inspect_reply.get "success" = some (.bool true) ∧
    ∃ vars, example_inspect_reply.get "body" = some (.obj [("variables", .arr vars)]) ∧
      vars.length = (example_scope.filter fun p => keep_variable_str p.1).length ∧
      vars.map (fun v => v.get "name") =
        (example_scope.filter fun p => keep_variable_str p.1).map
          (fun p => some (JValue.str p.1)) ∧
      ∀ v ∈ vars, v.get "variablesReference" = some (.num 0) :=
  inspect_variables_request_spec.1 example_scope example_inspect_message
    example_inspect_reply inspect_variables_request_spec.2.2

/-- Replace the json conversion of one Python object by a failing one (the listing
must survive this per variable). -/
def value_failure (o : PyObject) : PyObject := { o with to_json := none }

theorem variable_entry_value_failure (name : String) (o : PyObject) :
    (variable_entry name (value_failure o)).isSome = (variable_entry name o).isSome := by
  simp only [variable_entry, value_failure]
  cases truncate_type_name o.type_str.data <;> simp

theorem inspect_variables_vars_value_failure (gs : List (String × PyObject)) :
    (inspect_variables_vars (gs.map fun p => (p.1, value_failure p.2))).isSome =
      (inspect_variables_vars gs).isSome := by
  induction gs with
  | nil => rfl
  | cons p rest ih =>
      rcases p with ⟨name, obj⟩
      by_cases hk : keep_variable_str name
      · have hvf := variable_entry_value_failure name obj
        rcases he : variable_entry name obj with _ | e <;>
          rcases hef : variable_entry name (value_failure obj) with _ | ef <;>
          rcases ht : inspect_variables_vars (rest.map fun p => (p.1, value_failure p.2)) with _ | vt <;>
          rcases ht' : inspect_variables_vars rest with _ | vt' <;>
          simp_all [inspect_variables_vars, hk]
      · simpa [inspect_variables_vars, hk] using ih

/-- C9: a per-variable json-conversion failure is recovered by substituting
the textual repr as the value: the failing variable still appears with value
`repr`, the listing is not aborted (its success is unchanged when every
conversion is made to fail), and all other kept variables still appear (one
descriptor per kept global). -/
theorem inspect_variables_failure_recovery :
    (∀ globals message res name obj,
      inspect_variables_request globals message = some res →
      (name, obj) ∈ globals → keep_variable_str name = true → obj.to_json = none →
      ∃ vars l1 l2 t,
        res.get "body" = some (.obj [("variables", .arr vars)]) ∧
        vars.length = (globals.filter fun p => keep_variable_str p.1).length ∧
        vars = l1 ++ (JValue.obj [("name", .str name), ("variablesReference", .num 0),
                        ("value", .str obj.repr_str), ("type", .str (String.mk t))]) :: l2)
    ∧ (∀ globals message,
        (inspect_variables_request (globals.map fun p => (p.1, value_failure p.2))
            message).isSome =
          (inspect_variables_request globals message).isSome) := by
  constructor
  · intro globals message res name obj h hmem hk hjson
    obtain ⟨vars, s_raw, cmd, hv, _, _, hres⟩ := inspect_variables_request_eq globals message res h
    subst hres
    have hlen := (inspect_variables_vars_spec globals vars hv).2.1
    obtain ⟨g1, g2, hgs⟩ := List.append_of_mem hmem
    subst hgs
    rw [inspect_variables_vars_append] at hv
    rcases h1 : inspect_variables_vars g1 with _ | v1 <;> rw [h1] at hv
    · simp at hv
    rcases he : variable_entry name obj with _ | e <;>
      rcases h2 : inspect_variables_vars g2 with _ | v2 <;>
      simp [inspect_variables_vars, hk, he, h2] at hv
    obtain ⟨t, _, he'⟩ := variable_entry_eq name obj e he
    simp only [hjson] at he'
    subst he'
    subst hv
    exact ⟨_, v1, v2, t, rfl, hlen, rfl⟩
  · intro globals message
    have hvf := inspect_variables_vars_value_failure globals
    rcases ht : inspect_variables_vars (globals.map fun p => (p.1, value_failure p.2)) with _ | vt <;>
      rcases ht' : inspect_variables_vars globals with _ | vt' <;>
      rw [ht, ht'] at hvf <;> try simp at hvf
    · simp [inspect_variables_request, ht, ht']
    · rcases hs : message.get "seq" with _ | s_raw <;>
        rcases hc : message.get "command" with _ | cmd <;>
        simp [inspect_variables_request, ht, ht', hs, hc]

/-- Witness for C9: a one-variable scope whose json conversion fails still
yields its descriptor with the repr text as value. -/
theorem inspect_variables_failure_recovery_witness :
    ∃ vars l1 l2 t,
      (JValue.obj [("type", .str "response"), ("request_seq", .num 1),
        ("success", .bool true), ("command", .str "inspectVariables"),
        ("body", .obj [("variables", .arr [JValue.obj [("name", .str "x"),
          ("variablesReference", .num 0), ("value", .str "<odd object>"),
          ("type", .str "int")]])])]).get "body" =
        some (.obj [("variables", .arr vars)]) ∧
      vars.length = (([("x", (⟨none, "<odd object>", "<class \x27int\x27>"⟩ : PyObject))]).filter
        fun p => keep_variable_str p.1).length ∧
      vars = l1 ++ (JValue.obj [("name", .str "x"), ("variablesReference", .num 0),
                      ("value", .str "<odd object>"), ("type", .str (String.mk t))]) :: l2 :=
  inspect_variables_failure_recovery.1
    [("x", ⟨none, "<odd object>", "<class \x27int\x27>"⟩)]
    (JValue.obj [("seq", .num 1), ("command", .str "inspectVariables")])
    (JValue.obj [("type", .str "response"), ("request_seq", .num 1),
      ("success", .bool true), ("command", .str "inspectVariables"),
      ("body", .obj [("variables", .arr [JValue.obj [("name", .str "x"),
        ("variablesReference", .num 0), ("value", .str "<odd object>"),
        ("type", .str "int")]])])])
    "x" ⟨none, "<odd object>", "<class \x27int\x27>"⟩ rfl (List.mem_singleton.mpr rfl) rfl rfl

/-! richInspectVariables.  The embedded interpreter is abstracted by its
global scope (a dict, keys in insertion order) and by the display formatter
oracle `fmt` mapping a variable name to the (data, metadata) pair the
formatting expression produces.  The external adapter receives forwarded
requests; the handler never reads their replies, so forwarding is recorded
as a list. -/

/-- Name of the synthetic global receiving the data mapping
(`var_name + "_repr_data"` in the source). -/
def var_repr_data_name (var_name : String) : String := var_name ++ "_repr_data"

/-- Name of the synthetic global receiving the metadata mapping (the source
spells it `var_name + "_repr_metada"`). -/
def var_repr_metadata_name (var_name : String) : String := var_name ++ "_repr_metada"

/-- The pair of synthetic interpreter globals used for one variable name. -/
def synthetic_global_names (var_name : String) : List String :=
  [var_repr_data_name var_name, var_repr_metadata_name var_name]

/-- Nested const `operator[]` read `message[k1][k2]`. -/
def get_path2 (message : JValue) (k1 k2 : String) : Option JValue :=
  match message.get k1 with
  | none => none
  | some a => a.get k2

/-- Effect on the interpreter global scope of executing the synthesized
snippet `from IPython import get_ipython;<data>,<meta>= get_ipython().
display_formatter.format(<var>)`: the tuple produced by the formatter oracle
is unpacked into the two target globals, data first. -/
def exec_format_assign (fmt : String → JValue × JValue) (globals : List (String × JValue))
    (var_name target_data target_metadata : String) : List (String × JValue) :=
  setKey (setKey globals target_data (fmt var_name).1) target_metadata (fmt var_name).2

/-- The `for (const py::handle& key : repr_data)` loop of
`rich_inspect_variables_request`: starting from the two null-initialized
body slots, copy each data entry into the data slot and, when the metadata
mapping also contains the key, the metadata entry into the metadata slot. -/
def rich_body_loop (repr_data repr_metadata : JValue) :
    List (String × JValue) → JValue × JValue → JValue × JValue
  | [], acc => acc
  | (data_key, _) :: rest, acc =>
      let bd := acc.1.set data_key ((repr_data.get data_key).getD JValue.null)
      let bm := if repr_metadata.hasKey data_key then
                  acc.2.set data_key ((repr_metadata.get data_key).getD JValue.null)
                else acc.2
      rich_body_loop repr_data repr_metadata rest (bd, bm)

/-- Result of the richInspectVariables handler: the json reply, the requests
passed to `forward_message`, and the interpreter global scope after the
handler ran. -/
structure RichResult where
  reply : JValue
  forwarded : List JValue
  globals : List (String × JValue)

/-- Handler `debugger::rich_inspect_variables_request`.  With no stopped
thread the formatting snippet is executed directly in the interpreter; with a
stopped thread a single setExpression request (seq+1, frameId of the caller) is
forwarded instead and the interpreter scope is left untouched — the handler
then reads the two synthetic globals back in both cases and assembles the
body from them. -/
def rich_inspect_variables_request (fmt : String → JValue × JValue)
    (stopped_threads : List Int) (globals : List (String × JValue))
    (message : JValue) : Option RichResult :=
  match get_path2 message "arguments" "variableName" with
  | none => none
  | some vnv =>
  match vnv.asStr with
  | none => none
  | some vn =>
  let var_repr_data := var_repr_data_name vn
  let var_repr_metadata := var_repr_metadata_name vn
  let step : Option (List (String × JValue) × List JValue) :=
    if stopped_threads.isEmpty then
      some (exec_format_assign fmt globals vn var_repr_data var_repr_metadata, [])
    else
      let lvalue := var_repr_data ++ "," ++ var_repr_metadata
      let code := "get_ipython().display_formatter.format(" ++ vn ++ ")"
      match get_path2 message "arguments" "frameId" with
      | none => none
      | some fv =>
      match fv.asInt with
      | none => none
      | some frame_id =>
      match message.get "seq" with
      | none => none
      | some sv =>
      match sv.asInt with
      | none => none
      | some seq =>
        some (globals,
          [JValue.obj [("type", .str "request"), ("command", .str "setExpression"),
            ("seq", .num (seq + 1)),
            ("arguments", .obj [("expression", .str lvalue), ("value", .str code),
                                ("frameId", .num frame_id)])]])
  match step with
  | none => none
  | some (globals1, forwarded) =>
  match message.get "seq", message.get "command" with
  | some s_raw, some cmd =>
    let reply := JValue.obj [("type", .str "response"), ("request_seq", s_raw),
      ("success", .bool false), ("command", cmd)]
    match lookupKey globals1 var_repr_data, lookupKey globals1 var_repr_metadata with
    | some repr_data, some repr_metadata =>
      let body := rich_body_loop repr_data repr_metadata repr_data.getObj
        (JValue.null, JValue.null)
      let reply := reply.set "body" (JValue.obj [("data", body.1), ("metadata", body.2)])
      let reply := reply.set "success" (.bool true)
      some ⟨reply, forwarded, globals1⟩
    | _, _ => none
  | _, _ => none

/-! Session lifecycle. -/

/-- Endpoint naming of the generic base.  Modelled from the spec: the two
control channels are named via a documented deterministic per-kernel naming
scheme from the channel names "debugger" and "debugger_header"
(`xeus::get_controller_end_point`); only its determinism matters here. -/
def get_controller_end_point (channel : String) : String := "inproc://" ++ channel

/-- A zmq socket abstracted by the list of endpoints it is currently bound
to. -/
structure zmq_socket where
  bound : List String

/-- Model of `zmq::socket_t::unbind`: `zmq_unbind` fails (ENOENT) when the
endpoint was not previously bound and the C++ wrapper then raises
`zmq::error_t`; on success the endpoint is removed from the bound set of the socket. -/
def zmq_unbind (s : zmq_socket) (end_point : String) : Option zmq_socket :=
  if end_point ∈ s.bound then some ⟨s.bound.erase end_point⟩ else none

/-- `debugger::stop`: unbind the request endpoint, then the header endpoint.
The source contains no error handling, so an unbind failure propagates. -/
def stop (header_socket request_socket : zmq_socket) : Option (zmq_socket × zmq_socket) :=
  match zmq_unbind request_socket (get_controller_end_point "debugger") with
  | none => none
  | some r =>
    match zmq_unbind header_socket (get_controller_end_point "debugger_header") with
    | none => none
    | some h => some (h, r)

/-- Bootstrap snippet built by `debugger::start_debugpy`: import the
library, optionally configure the interpreter path from the debugger
configuration key "python" (its `get<std::string>` throws on a non-string
value), then listen on the session host and port. -/
def debugpy_bootstrap_code (debugger_config : JValue) (host port : String) : Option String :=
  let code := "import debugpy;"
  match debugger_config.get "python" with
  | none => some (code ++ "debugpy.listen((\x27" ++ host ++ "\x27," ++ port ++ "))")
  | some pv =>
    match pv.asStr with
    | none => none
    | some p =>
        some (code ++ "debugpy.configure(\x7b\x27python\x27: r\x27" ++ p ++ "\x27\x7d);"
          ++ "debugpy.listen((\x27" ++ host ++ "\x27," ++ port ++ "))")

/-- `debugger::start_debugpy`: send the bootstrap snippet to the shell via
the control messenger (oracle `send_to_shell`) and require a reply status of
"ok"; on any other status, log the exception banner, every traceback line,
then "ename - evalue", and return `status == "ok"`.  The XEUS_LOG
diagnostic-file dump does not affect the result and is not modelled. -/
def start_debugpy (debugger_config : JValue) (host port : String)
    (send_to_shell : JValue → JValue) : Option (Bool × List String) :=
  match debugpy_bootstrap_code debugger_config host port with
  | none => none
  | some code =>
    let rep := send_to_shell (JValue.obj [("code", .str code)])
    match (rep.get "status").bind JValue.asStr with
    | none => none
    | some status =>
      if status ≠ "ok" then
        match (rep.get "ename").bind JValue.asStr, (rep.get "evalue").bind JValue.asStr,
              (rep.get "traceback").bind JValue.asStrList with
        | some ename, some evalue, some traceback =>
            some (status == "ok",
              "Exception raised when trying to import debugpy" :: traceback
                ++ [ename ++ " - " ++ evalue])
        | _, _, _ => none
      else some (status == "ok", [])

theorem var_repr_name_right_cancel (a b s : String) (h : a ++ s = b ++ s) : a = b := by
  have hd : a.data ++ s.data = b.data ++ s.data := congrArg String.data h
  exact String.ext (List.append_cancel_right hd)

theorem var_repr_data_name_ne_metadata_name (a b : String) :
    var_repr_data_name a ≠ var_repr_metadata_name b := by
  intro h
  have hd : a.data ++ "_repr_data".data = b.data ++ "_repr_metada".data :=
    congrArg String.data h
  have hsplit : ("_repr_metada" : String).data = "_r".data ++ "epr_metada".data := rfl
  rw [hsplit, ← List.append_assoc] at hd
  have hlen : ("_repr_data".data).length = ("epr_metada".data).length := rfl
  have := (List.append_inj' hd hlen).2
  exact absurd this (by decide)

/-- C10: the two synthetic interpreter globals are named from the variableName of the request
alone, as variableName ++ "_repr_data" and variableName ++
"_repr_metada" (the truncated spelling of the source); equal variable names hence
use the same pair, and distinct variable names use disjoint pairs — they are
not one shared process-wide slot. -/
theorem synthetic_global_names_spec :
    (∀ v, synthetic_global_names v = [v ++ "_repr_data", v ++ "_repr_metada"])
    ∧ (∀ v1 v2, v1 = v2 → synthetic_global_names v1 = synthetic_global_names v2)
    ∧ (∀ v1 v2 n, v1 ≠ v2 →
        n ∈ synthetic_global_names v1 → n ∉ synthetic_global_names v2) := by
  refine ⟨fun v => rfl, fun v1 v2 h => by rw [h], ?_⟩
  intro v1 v2 n hne h1 h2
  simp only [synthetic_global_names, List.mem_cons, List.mem_singleton,
    List.not_mem_nil, or_false] at h1 h2
  rcases h1 with h1 | h1 <;> rcases h2 with h2 | h2 <;> rw [h1] at h2
  · exact hne (var_repr_name_right_cancel v1 v2 "_repr_data" h2)
  · exact var_repr_data_name_ne_metadata_name v1 v2 h2
  · exact var_repr_data_name_ne_metadata_name v2 v1 h2.symm
  · exact hne (var_repr_name_right_cancel v1 v2 "_repr_metada" h2)

/-- Witness for C10: the globals of "x" are not among the globals of "y". -/
theorem synthetic_global_names_spec_witness :
    ("x_repr_data" : String) ∉ synthetic_global_names "y" :=
  synthetic_global_names_spec.2.2 "x" "y" "x_repr_data" (by decide) (by decide)

/-- C3 counterexample: starting from sockets each bound to its control
endpoint, the first stop() succeeds and unbinds both; the second stop(),
where both endpoints are already unbound, fails (the unbind error
propagates), so stop() is not idempotent and unbinding an unbound endpoint
is fatal. -/
theorem stop_twice_counterexample :
    stop ⟨[get_controller_end_point "debugger_header"]⟩
        ⟨[get_controller_end_point "debugger"]⟩ =
      some (⟨[]⟩, ⟨[]⟩) ∧
    stop ⟨[]⟩ ⟨[]⟩ = none := ⟨rfl, rfl⟩

/-- C3 amended: calling stop() twice in a row raises on the second call:
whenever a stop() succeeds on sockets without duplicate bindings, the
immediately repeated stop() fails, because unbinding the now-unbound request
endpoint reports an error that propagates out of stop(). -/
theorem stop_second_call_raises (h r hs rs : zmq_socket)
    (hnd : r.bound.Nodup)
    (hstop : stop h r = some (hs, rs)) : stop hs rs = none := by
  unfold stop zmq_unbind at hstop ⊢
  by_cases h1 : get_controller_end_point "debugger" ∈ r.bound
  · rw [if_pos h1] at hstop
    by_cases h2 : get_controller_end_point "debugger_header" ∈ h.bound
    · rw [if_pos h2] at hstop
      simp only [Option.some.injEq, Prod.mk.injEq] at hstop
      obtain ⟨-, hrs⟩ := hstop
      have hmem : get_controller_end_point "debugger" ∉ rs.bound := by
        rw [← hrs]
        intro hm
        exact ((List.Nodup.mem_erase_iff hnd).mp hm).1 rfl
      rw [if_neg hmem]
    · rw [if_neg h2] at hstop
      exact absurd hstop (by simp)
  · rw [if_neg h1] at hstop
    exact absurd hstop (by simp)

/-- Witness for the amended statement of C3: a concrete pair of singly-bound
sockets. -/
theorem stop_second_call_raises_witness : stop ⟨[]⟩ ⟨[]⟩ = none :=
  stop_second_call_raises ⟨[get_controller_end_point "debugger_header"]⟩
    ⟨[get_controller_end_point "debugger"]⟩ ⟨[]⟩ ⟨[]⟩ (by simp) rfl

/-- C8: start_debugpy returns true iff the shell reply to the single
"run code" request has status "ok"; for any other status it logs (in order)
the exception banner, every traceback line and "ename - evalue" before
returning false. -/
theorem start_debugpy_spec :
    ∀ debugger_config host port send_to_shell b log code,
      start_debugpy debugger_config host port send_to_shell = some (b, log) →
      debugpy_bootstrap_code debugger_config host port = some code →
      ((b = true ↔
         (send_to_shell (JValue.obj [("code", .str code)])).get "status" =
           some (.str "ok")) ∧
       (b = false → ∃ ename evalue traceback,
         ((send_to_shell (JValue.obj [("code", .str code)])).get "ename").bind
             JValue.asStr = some ename ∧
         ((send_to_shell (JValue.obj [("code", .str code)])).get "evalue").bind
             JValue.asStr = some evalue ∧
         ((send_to_shell (JValue.obj [("code", .str code)])).get "traceback").bind
             JValue.asStrList = some traceback ∧
         log = "Exception raised when trying to import debugpy" :: traceback
           ++ [ename ++ " - " ++ evalue])) := by
  intro debugger_config host port send_to_shell b log code h hcode
  rw [start_debugpy, hcode] at h
  dsimp only [] at h
  rcases hs : ((send_to_shell (JValue.obj [("code", .str code)])).get "status").bind
      JValue.asStr with _ | status
  · rw [hs] at h
    exact absurd h (by simp)
  rw [hs] at h
  dsimp only [] at h
  have hfield : ∀ st, ((send_to_shell (JValue.obj [("code", .str code)])).get "status").bind
      JValue.asStr = some st →
      ((send_to_shell (JValue.obj [("code", .str code)])).get "status" = some (.str st)) := by
    intro st hst
    rcases hg : (send_to_shell (JValue.obj [("code", .str code)])).get "status" with _ | v
    · rw [hg] at hst
      exact absurd hst (by simp)
    · rw [hg] at hst
      rcases v with _ | _ | _ | s | _ | _ <;> simp [JValue.asStr] at hst
      rw [hst]
  by_cases hok : status = "ok"
  · subst hok
    rw [if_neg (by simp)] at h
    simp only [Option.some.injEq, Prod.mk.injEq] at h
    obtain ⟨hb, hl⟩ := h
    constructor
    · constructor
      · intro _
        exact hfield "ok" hs
      · intro _
        rw [← hb]
        rfl
    · intro hbf
      rw [← hb] at hbf
      exact absurd hbf (by decide)
  · rw [if_pos hok] at h
    rcases he : ((send_to_shell (JValue.obj [("code", .str code)])).get "ename").bind
        JValue.asStr with _ | ename <;> rw [he] at h
    · exact absurd h (by simp)
    rcases hv : ((send_to_shell (JValue.obj [("code", .str code)])).get "evalue").bind
        JValue.asStr with _ | evalue <;> rw [hv] at h
    · exact absurd h (by simp)
    rcases htb : ((send_to_shell (JValue.obj [("code", .str code)])).get "traceback").bind
        JValue.asStrList with _ | traceback <;> rw [htb] at h
    · exact absurd h (by simp)
    simp only [Option.some.injEq, Prod.mk.injEq] at h
    obtain ⟨hb, hl⟩ := h
    have hbeq : (status == "ok") = false := by
      exact beq_eq_false_iff_ne.mpr hok
    constructor
    · constructor
      · intro hbt
        rw [← hb, hbeq] at hbt
        exact absurd hbt (by decide)
      · intro hstat
        have := hfield status hs
        rw [hstat] at this
        have : status = "ok" := by
          injection this.symm with h'
          injection h'
        exact absurd this hok
    · intro _
      exact ⟨ename, evalue, traceback, rfl, rfl, rfl, hl.symm⟩

/-- Witness for C8 at the concrete failing reply of the spec: an ImportError with
one traceback line makes the bootstrap return false and log the banner, the
traceback and the exception line. -/
theorem start_debugpy_spec_witness :
    ((false : Bool) = true ↔
      ((fun _ => JValue.obj [("status", .str "error"), ("ename", .str "ImportError"),
          ("evalue", .str "No module named debugpy"),
          ("traceback", .arr [.str "Traceback (most recent call last):"])]) (JValue.obj
            [("code", .str ("import debugpy;" ++ "debugpy.listen((\x27" ++ "127.0.0.1"
              ++ "\x27," ++ "5678" ++ "))"))])).get "status" = some (.str "ok")) ∧
    ((false : Bool) = false → ∃ ename evalue traceback,
      (((fun _ => JValue.obj [("status", .str "error"), ("ename", .str "ImportError"),
          ("evalue", .str "No module named debugpy"),
          ("traceback", .arr [.str "Traceback (most recent call last):"])]) (JValue.obj
            [("code", .str ("import debugpy;" ++ "debugpy.listen((\x27" ++ "127.0.0.1"
              ++ "\x27," ++ "5678" ++ "))"))])).get "ename").bind JValue.asStr = some ename ∧
      (((fun _ => JValue.obj [("status", .str "error"), ("ename", .str "ImportError"),
          ("evalue", .str "No module named debugpy"),
          ("traceback", .arr [.str "Traceback (most recent call last):"])]) (JValue.obj
            [("code", .str ("import debugpy;" ++ "debugpy.listen((\x27" ++ "127.0.0.1"
              ++ "\x27," ++ "5678" ++ "))"))])).get "evalue").bind JValue.asStr = some evalue ∧
      (((fun _ => JValue.obj [("status", .str "error"), ("ename", .str "ImportError"),
          ("evalue", .str "No module named debugpy"),
          ("traceback", .arr [.str "Traceback (most recent call last):"])]) (JValue.obj
            [("code", .str ("import debugpy;" ++ "debugpy.listen((\x27" ++ "127.0.0.1"
              ++ "\x27," ++ "5678" ++ "))"))])).get "traceback").bind JValue.asStrList =
        some traceback ∧
      ("Exception raised when trying to import debugpy" :: "Traceback (most recent call last):"
          :: ["ImportError" ++ " - " ++ "No module named debugpy"] : List String) =
        "Exception raised when trying to import debugpy" :: traceback
          ++ [ename ++ " - " ++ evalue]) :=
  start_debugpy_spec (JValue.obj []) "127.0.0.1" "5678"
    (fun _ => JValue.obj [("status", .str "error"), ("ename", .str "ImportError"),
      ("evalue", .str "No module named debugpy"),
      ("traceback", .arr [.str "Traceback (most recent call last):"])])
    false
    ("Exception raised when trying to import debugpy" :: "Traceback (most recent call last):"
      :: ["ImportError" ++ " - " ++ "No module named debugpy"])
    ("import debugpy;" ++ "debugpy.listen((\x27" ++ "127.0.0.1" ++ "\x27," ++ "5678" ++ "))")
    rfl rfl

theorem JValue_mem_keys_set (j : JValue) (key k : String) (v : JValue) :
    k ∈ (j.set key v).keys ↔ k = key ∨ k ∈ j.keys := by
  show k ∈ (setKey j.getObj key v).map Prod.fst ↔ k = key ∨ k ∈ j.getObj.map Prod.fst
  exact mem_setKey_keys j.getObj key k v

theorem rich_body_loop_fst_keys (d m : JValue) (entries : List (String × JValue)) :
    ∀ bd bm k, k ∈ ((rich_body_loop d m entries (bd, bm)).1).keys ↔
      k ∈ bd.keys ∨ k ∈ entries.map Prod.fst := by
  induction entries with
  | nil =>
      intro bd bm k
      simp [rich_body_loop]
  | cons p rest ih =>
      intro bd bm k
      rcases p with ⟨key, pv⟩
      rw [rich_body_loop]
      dsimp only []
      rw [ih, JValue_mem_keys_set]
      simp only [List.map_cons, List.mem_cons]
      tauto

theorem rich_body_loop_snd_keys (d m : JValue) (entries : List (String × JValue)) :
    ∀ bd bm k, k ∈ ((rich_body_loop d m entries (bd, bm)).2).keys →
      k ∈ bm.keys ∨ (k ∈ entries.map Prod.fst ∧ m.hasKey k = true) := by
  induction entries with
  | nil =>
      intro bd bm k hk
      rw [rich_body_loop] at hk
      exact Or.inl hk
  | cons p rest ih =>
      intro bd bm k hk
      rcases p with ⟨key, pv⟩
      rw [rich_body_loop] at hk
      dsimp only [] at hk
      by_cases hm : m.hasKey key
      · rw [if_pos hm] at hk
        rcases ih _ _ _ hk with h | h
        · rw [JValue_mem_keys_set] at h
          rcases h with rfl | h
          · exact Or.inr ⟨by simp, hm⟩
          · exact Or.inl h
        · exact Or.inr ⟨by simp [h.1], h.2⟩
      · rw [if_neg hm] at hk
        rcases ih _ _ _ hk with h | h
        · exact Or.inl h
        · exact Or.inr ⟨by simp [h.1], h.2⟩

theorem rich_inspect_variables_request_eq :
    ∀ (fmt : String → JValue × JValue) stopped_threads globals message res,
      rich_inspect_variables_request fmt stopped_threads globals message = some res →
      ∃ vn s_raw cmd repr_data repr_metadata,
        get_path2 message "arguments" "variableName" = some (.str vn) ∧
        message.get "seq" = some s_raw ∧
        message.get "command" = some cmd ∧
        lookupKey res.globals (var_repr_data_name vn) = some repr_data ∧
        lookupKey res.globals (var_repr_metadata_name vn) = some repr_metadata ∧
        res.reply = ((JValue.obj [("type", .str "response"), ("request_seq", s_raw),
            ("success", .bool false), ("command", cmd)]).set "body"
              (JValue.obj
                [("data", (rich_body_loop repr_data repr_metadata repr_data.getObj
                    (JValue.null, JValue.null)).1),
                 ("metadata", (rich_body_loop repr_data repr_metadata repr_data.getObj
                    (JValue.null, JValue.null)).2)])).set "success" (.bool true) := by
  intro fmt stopped_threads globals message res h
  rw [rich_inspect_variables_request] at h
  rcases hvn : get_path2 message "arguments" "variableName" with _ | vnv <;> rw [hvn] at h
  · exact Option.noConfusion h
  dsimp only [] at h
  rcases vnv with _ | bb | nn | vn | aa | oo <;> dsimp only [JValue.asStr] at h <;>
    try exact Option.noConfusion h
  rcases hstop : stopped_threads.isEmpty with _ | _ <;> rw [hstop] at h
  · -- stopped: the forwarding branch ran
    rw [if_neg (by simp)] at h
    rcases hf : get_path2 message "arguments" "frameId" with _ | fv <;> rw [hf] at h
    · exact Option.noConfusion h
    dsimp only [] at h
    rcases fv with _ | bb | frame_id | ss | aa | oo <;> dsimp only [JValue.asInt] at h <;>
      try exact Option.noConfusion h
    rcases hs : message.get "seq" with _ | sv <;> rw [hs] at h
    · exact Option.noConfusion h
    dsimp only [] at h
    rcases sv with _ | bb | seq | ss | aa | oo <;> dsimp only [JValue.asInt] at h <;>
      try exact Option.noConfusion h
    rcases hc : message.get "command" with _ | cmd <;> rw [hc] at h
    · exact Option.noConfusion h
    dsimp only [] at h
    rcases hl1 : lookupKey globals (var_repr_data_name vn) with _ | rd <;> rw [hl1] at h
    · exact Option.noConfusion h
    rcases hl2 : lookupKey globals (var_repr_metadata_name vn) with _ | rm <;> rw [hl2] at h
    · exact Option.noConfusion h
    dsimp only [] at h
    simp only [Option.some.injEq] at h
    subst h
    exact ⟨vn, .num seq, cmd, rd, rm, rfl, rfl, rfl, hl1, hl2, rfl⟩
  · -- not stopped: the direct interpreter path ran
    rw [if_pos rfl] at h
    dsimp only [] at h
    rcases hs : message.get "seq" with _ | s_raw <;> rw [hs] at h
    · exact Option.noConfusion h
    rcases hc : message.get "command" with _ | cmd <;> rw [hc] at h
    · exact Option.noConfusion h
    dsimp only [] at h
    rw [exec_format_assign] at h
    rw [lookupKey_setKey_ne _ _ _ _
      (Ne.symm (var_repr_data_name_ne_metadata_name vn vn)),
      lookupKey_setKey_self, lookupKey_setKey_self] at h
    dsimp only [] at h
    simp only [Option.some.injEq] at h
    subst h
    refine ⟨vn, s_raw, cmd, (fmt vn).1, (fmt vn).2, rfl, rfl, rfl, ?_, ?_, rfl⟩
    · show lookupKey (setKey (setKey globals (var_repr_data_name vn) (fmt vn).1)
        (var_repr_metadata_name vn) (fmt vn).2) (var_repr_data_name vn) = some (fmt vn).1
      rw [lookupKey_setKey_ne _ _ _ _
        (Ne.symm (var_repr_data_name_ne_metadata_name vn vn)),
        lookupKey_setKey_self]
    · show lookupKey (setKey (setKey globals (var_repr_data_name vn) (fmt vn).1)
        (var_repr_metadata_name vn) (fmt vn).2) (var_repr_metadata_name vn) = some (fmt vn).2
      rw [lookupKey_setKey_self]

/-- C2: a richInspectVariables request with no stopped thread runs the direct
interpreter-formatting path (the formatter output is assigned to the two
synthetic globals) and forwards nothing; with a stopped thread it forwards
exactly one setExpression request whose seq is the incoming seq + 1 and whose
frameId is the incoming arguments.frameId. -/
theorem rich_inspect_variables_request_forwarding :
    ∀ (fmt : String → JValue × JValue) stopped_threads globals message res vn,
      rich_inspect_variables_request fmt stopped_threads globals message = some res →
      get_path2 message "arguments" "variableName" = some (.str vn) →
      (stopped_threads.isEmpty = true →
        res.forwarded = [] ∧
        res.globals = exec_format_assign fmt globals vn (var_repr_data_name vn)
          (var_repr_metadata_name vn)) ∧
      (stopped_threads.isEmpty = false →
        ∀ seq frame_id, message.get "seq" = some (.num seq) →
          get_path2 message "arguments" "frameId" = some (.num frame_id) →
          res.forwarded = [JValue.obj [("type", .str "request"),
            ("command", .str "setExpression"), ("seq", .num (seq + 1)),
            ("arguments", .obj [("expression",
                .str (var_repr_data_name vn ++ "," ++ var_repr_metadata_name vn)),
              ("value", .str ("get_ipython().display_formatter.format(" ++ vn ++ ")")),
              ("frameId", .num frame_id)])]]) := by
  intro fmt stopped_threads globals message res vn h hvn
  rw [rich_inspect_variables_request, hvn] at h
  dsimp only [JValue.asStr] at h
  constructor
  · intro hstop
    rw [hstop, if_pos rfl] at h
    dsimp only [] at h
    rcases hs : message.get "seq" with _ | s_raw <;> rw [hs] at h
    · exact Option.noConfusion h
    rcases hc : message.get "command" with _ | cmd <;> rw [hc] at h
    · exact Option.noConfusion h
    dsimp only [] at h
    rw [exec_format_assign] at h
    rw [lookupKey_setKey_ne _ _ _ _
      (Ne.symm (var_repr_data_name_ne_metadata_name vn vn)),
      lookupKey_setKey_self, lookupKey_setKey_self] at h
    dsimp only [] at h
    simp only [Option.some.injEq] at h
    subst h
    exact ⟨rfl, rfl⟩
  · intro hstop seq frame_id hs hf
    rw [hstop, if_neg (by simp)] at h
    rw [hf] at h
    dsimp only [JValue.asInt] at h
    rw [hs] at h
    dsimp only [JValue.asInt] at h
    rcases hc : message.get "command" with _ | cmd <;> rw [hc] at h
    · exact Option.noConfusion h
    dsimp only [] at h
    rcases hl1 : lookupKey globals (var_repr_data_name vn) with _ | rd <;> rw [hl1] at h
    · exact Option.noConfusion h
    rcases hl2 : lookupKey globals (var_repr_metadata_name vn) with _ | rm <;> rw [hl2] at h
    · exact Option.noConfusion h
    dsimp only [] at h
    simp only [Option.some.injEq] at h
    subst h
    rfl

/-- Witness for C2 in the stopped branch: a request with seq 5 and frameId 3
for variable "x" yields exactly one forwarded setExpression request with
seq 6 and frameId 3. -/
theorem rich_inspect_variables_request_forwarding_witness :
    (⟨JValue.obj [("type", .str "response"), ("request_seq", .num 5),
        ("success", .bool true), ("command", .str "richInspectVariables"),
        ("body", .obj [("data", .obj [("text/plain", .str "1")]), ("metadata", .null)])],
      [JValue.obj [("type", .str "request"), ("command", .str "setExpression"),
        ("seq", .num 6),
        ("arguments", .obj [("expression", .str "x_repr_data,x_repr_metada"),
          ("value", .str "get_ipython().display_formatter.format(x)"),
          ("frameId", .num 3)])]],
      [("x_repr_data", JValue.obj [("text/plain", .str "1")]),
       ("x_repr_metada", JValue.obj [])]⟩ : RichResult).forwarded =
      [JValue.obj [("type", .str "request"),
        ("command", .str "setExpression"), ("seq", .num (5 + 1)),
        ("arguments", .obj [("expression",
            .str (var_repr_data_name "x" ++ "," ++ var_repr_metadata_name "x")),
          ("value", .str ("get_ipython().display_formatter.format(" ++ "x" ++ ")")),
          ("frameId", .num 3)])]] :=
  (rich_inspect_variables_request_forwarding
    (fun _ => (JValue.obj [("text/plain", .str "1")], JValue.obj []))
    [1]
    [("x_repr_data", JValue.obj [("text/plain", .str "1")]),
     ("x_repr_metada", JValue.obj [])]
    (JValue.obj [("seq", .num 5), ("command", .str "richInspectVariables"),
      ("arguments", .obj [("variableName", .str "x"), ("frameId", .num 3)])])
    ⟨JValue.obj [("type", .str "response"), ("request_seq", .num 5),
        ("success", .bool true), ("command", .str "richInspectVariables"),
        ("body", .obj [("data", .obj [("text/plain", .str "1")]), ("metadata", .null)])],
      [JValue.obj [("type", .str "request"), ("command", .str "setExpression"),
        ("seq", .num 6),
        ("arguments", .obj [("expression", .str "x_repr_data,x_repr_metada"),
          ("value", .str "get_ipython().display_formatter.format(x)"),
          ("frameId", .num 3)])]],
      [("x_repr_data", JValue.obj [("text/plain", .str "1")]),
       ("x_repr_metada", JValue.obj [])]⟩
    "x" rfl rfl).2 rfl 5 3 rfl rfl

/-- C7: after either formatting path, the reply is assembled by reading the
two synthetic globals back: the data map of the body has an entry for every key of
the data mapping, the metadata map of the body has an entry for a key only if that
key is in both the data and the metadata mapping, and the reply carries
success true and request_seq equal to the incoming raw seq. -/
theorem rich_inspect_variables_request_reply :
    ∀ (fmt : String → JValue × JValue) stopped_threads globals message res,
      rich_inspect_variables_request fmt stopped_threads globals message = some res →
      res.reply.get "success" = some (.bool true) ∧
      res.reply.get "request_seq" = message.get "seq" ∧
      ∃ vn repr_data repr_metadata bd bm,
        get_path2 message "arguments" "variableName" = some (.str vn) ∧
        lookupKey res.globals (var_repr_data_name vn) = some repr_data ∧
        lookupKey res.globals (var_repr_metadata_name vn) = some repr_metadata ∧
        res.reply.get "body" = some (.obj [("data", bd), ("metadata", bm)]) ∧
        (∀ k, k ∈ repr_data.keys → k ∈ bd.keys) ∧
        (∀ k, k ∈ bm.keys → k ∈ repr_data.keys ∧ repr_metadata.hasKey k = true) := by
  intro fmt stopped_threads globals message res h
  obtain ⟨vn, s_raw, cmd, rd, rm, hvn, hs, hc, hl1, hl2, hreply⟩ :=
    rich_inspect_variables_request_eq fmt stopped_threads globals message res h
  refine ⟨?_, ?_, vn, rd, rm,
    (rich_body_loop rd rm rd.getObj (JValue.null, JValue.null)).1,
    (rich_body_loop rd rm rd.getObj (JValue.null, JValue.null)).2,
    hvn, hl1, hl2, ?_, ?_, ?_⟩
  · rw [hreply]
    show lookupKey (setKey (setKey _ "body" _) "success" _) "success" = some (.bool true)
    rw [lookupKey_setKey_self]
  · rw [hreply, hs]
    show lookupKey (setKey (setKey _ "body" _) "success" _) "request_seq" = some s_raw
    rw [lookupKey_setKey_ne _ _ _ _ (by decide), lookupKey_setKey_ne _ _ _ _ (by decide)]
    rfl
  · rw [hreply]
    show lookupKey (setKey (setKey _ "body" _) "success" _) "body" = _
    rw [lookupKey_setKey_ne _ _ _ _ (by decide), lookupKey_setKey_self]
  · intro k hk
    exact (rich_body_loop_fst_keys rd rm rd.getObj JValue.null JValue.null k).mpr (Or.inr hk)
  · intro k hk
    rcases rich_body_loop_snd_keys rd rm rd.getObj JValue.null JValue.null k hk with h' | h'
    · exact absurd h' (by simp [JValue.keys, JValue.getObj])
    · exact h'

/-- Witness for C7 in the direct path: formatting variable "x" with a
text/plain rendering carrying metadata produces a success reply whose body
holds that data and metadata. -/
theorem rich_inspect_variables_request_reply_witness :
    (⟨JValue.obj [("type", .str "response"), ("request_seq", .num 5),
        ("success", .bool true), ("command", .str "richInspectVariables"),
        ("body", .obj [("data", .obj [("text/plain", .str "1")]),
          ("metadata", .obj [("text/plain", .obj [])])])],
      ([] : List JValue),
      [("x_repr_data", JValue.obj [("text/plain", .str "1")]),
       ("x_repr_metada", JValue.obj [("text/plain", .obj [])])]⟩ : RichResult).reply.get
        "success" = some (.bool true) ∧
    (⟨JValue.obj [("type", .str "response"), ("request_seq", .num 5),
        ("success", .bool true), ("command", .str "richInspectVariables"),
        ("body", .obj [("data", .obj [("text/plain", .str "1")]),
          ("metadata", .obj [("text/plain", .obj [])])])],
      ([] : List JValue),
      [("x_repr_data", JValue.obj [("text/plain", .str "1")]),
       ("x_repr_metada", JValue.obj [("text/plain", .obj [])])]⟩ : RichResult).reply.get
        "request_seq" =
      (JValue.obj [("seq", .num 5), ("command", .str "richInspectVariables"),
        ("arguments", .obj [("variableName", .str "x")])]).get "seq" ∧
    ∃ vn repr_data repr_metadata bd bm,
      get_path2 (JValue.obj [("seq", .num 5), ("command", .str "richInspectVariables"),
          ("arguments", .obj [("variableName", .str "x")])]) "arguments" "variableName" =
        some (.str vn) ∧
      lookupKey [("x_repr_data", JValue.obj [("text/plain", .str "1")]),
        ("x_repr_metada", JValue.obj [("text/plain", .obj [])])] (var_repr_data_name vn) =
        some repr_data ∧
      lookupKey [("x_repr_data", JValue.obj [("text/plain", .str "1")]),
        ("x_repr_metada", JValue.obj [("text/plain", .obj [])])] (var_repr_metadata_name vn) =
        some repr_metadata ∧
      (JValue.obj [("type", .str "response"), ("request_seq", .num 5),
        ("success", .bool true), ("command", .str "richInspectVariables"),
        ("body", .obj [("data", .obj [("text/plain", .str "1")]),
          ("metadata", .obj [("text/plain", .obj [])])])]).get "body" =
        some (.obj [("data", bd), ("metadata", bm)]) ∧
      (∀ k, k ∈ repr_data.keys → k ∈ bd.keys) ∧
      (∀ k, k ∈ bm.keys → k ∈ repr_data.keys ∧ repr_metadata.hasKey k = true) :=
  rich_inspect_variables_request_reply
    (fun _ => (JValue.obj [("text/plain", .str "1")], JValue.obj [("text/plain", .obj [])]))
    [] []
    (JValue.obj [("seq", .num 5), ("command", .str "richInspectVariables"),
      ("arguments", .obj [("variableName", .str "x")])])
    ⟨JValue.obj [("type", .str "response"), ("request_seq", .num 5),
        ("success", .bool true), ("command", .str "richInspectVariables"),
        ("body", .obj [("data", .obj [("text/plain", .str "1")]),
          ("metadata", .obj [("text/plain", .obj [])])])],
      [],
      [("x_repr_data", JValue.obj [("text/plain", .str "1")]),
       ("x_repr_metada", JValue.obj [("text/plain", .obj [])])]⟩
    rfl

end XeusPython
